import Mathlib

/-!
Verification of the `timewise-analytics` linear-regression module
(`src/main.rs`). The Rust code works on `f64`; here its arithmetic is
embedded exactly over `ℚ`, with `f64::EPSILON = 2⁻⁵²` as an exact rational
constant, so every closed-form identity of the code becomes an exact
statement.
-/

namespace Timewise

/-- Error kinds of `enum LinearRegressionError` in main.rs. -/
inductive LinearRegressionError where
  | EmptyData
  | InsufficientData
  | InvalidInput
deriving DecidableEq

/-- Fitted line coefficients, `struct LinearCoefficients` in main.rs. -/
structure LinearCoefficients where
  slope : ℚ
  intercept : ℚ
deriving DecidableEq

/-- Result bundle, `struct RegressionResult` in main.rs. -/
structure RegressionResult where
  coefficients : LinearCoefficients
  r_squared : ℚ
  mse : ℚ
  predictions : List ℚ
deriving DecidableEq

/-- `f64::EPSILON`, the machine epsilon 2⁻⁵² of `f64`, as an exact rational. -/
def f64EPSILON : ℚ := 1 / 2 ^ 52

/-- `LinearRegression::calculate_coefficients` from main.rs. -/
def calculate_coefficients (x y : List ℚ) :
    Except LinearRegressionError LinearCoefficients :=
  let n : ℚ := x.length
  let sum_x : ℚ := x.sum
  let sum_y : ℚ := y.sum
  let sum_xy : ℚ := (List.zipWith (fun xi yi => xi * yi) x y).sum
  let sum_x2 : ℚ := (x.map (fun xi => xi * xi)).sum
  let denominator := n * sum_x2 - sum_x * sum_x
  if |denominator| < f64EPSILON then
    .error .InvalidInput
  else
    let slope := (n * sum_xy - sum_x * sum_y) / denominator
    let intercept := (sum_y - slope * sum_x) / n
    .ok { slope := slope, intercept := intercept }

/-- `LinearRegression::predict_range` from main.rs. -/
def predict_range (x : List ℚ) (coefficients : LinearCoefficients) : List ℚ :=
  x.map (fun xi => coefficients.slope * xi + coefficients.intercept)

/-- `LinearRegression::forecast` from main.rs. -/
def forecast (coefficients : LinearCoefficients) (periods : ℕ) : List ℚ :=
  (List.range periods).map (fun i : ℕ => coefficients.slope * (i : ℚ) + coefficients.intercept)

/-- `LinearRegression::calculate_r_squared` from main.rs. -/
def calculate_r_squared (actual predicted : List ℚ) : ℚ :=
  let mean_actual : ℚ := actual.sum / (actual.length : ℚ)
  let total_sum_squares : ℚ := (actual.map (fun yi => (yi - mean_actual) ^ 2)).sum
  let residual_sum_squares : ℚ :=
    (List.zipWith (fun yi y_pred => (yi - y_pred) ^ 2) actual predicted).sum
  if |total_sum_squares| < f64EPSILON then
    1
  else
    1 - residual_sum_squares / total_sum_squares

/-- `LinearRegression::calculate_mse` from main.rs. -/
def calculate_mse (actual predicted : List ℚ) : ℚ :=
  (List.zipWith (fun yi y_pred => (yi - y_pred) ^ 2) actual predicted).sum
    / (actual.length : ℚ)

/-- The dense time index built inside `fit`:
`let x: Vec<f64> = (0..data.len()).map(|i| i as f64).collect()`. -/
def timeIndex (n : ℕ) : List ℚ := (List.range n).map (fun i : ℕ => (i : ℚ))

/-- `LinearRegression::fit` from main.rs. -/
def fit (data : List ℚ) : Except LinearRegressionError RegressionResult :=
  if data.isEmpty then
    .error .EmptyData
  else if data.length < 2 then
    .error .InsufficientData
  else
    let x := timeIndex data.length
    let y := data
    match calculate_coefficients x y with
    | .error e => .error e
    | .ok coefficients =>
      let predictions := predict_range x coefficients
      let r_squared := calculate_r_squared y predictions
      let mse := calculate_mse y predictions
      .ok { coefficients := coefficients, r_squared := r_squared,
            mse := mse, predictions := predictions }

/-- `sum_x` of `calculate_coefficients` when `x` is the dense index of length `n`. -/
def sum_x (n : ℕ) : ℚ := (timeIndex n).sum

/-- `sum_x2` of `calculate_coefficients` when `x` is the dense index of length `n`. -/
def sum_x2 (n : ℕ) : ℚ := ((timeIndex n).map (fun xi => xi * xi)).sum

/-- `sum_xy` of `calculate_coefficients` for the dense index paired with `data`. -/
def sum_xy (data : List ℚ) : ℚ :=
  (List.zipWith (fun xi yi => xi * yi) (timeIndex data.length) data).sum

/-- The least-squares denominator `n·sum_x2 − sum_x²` over the dense index `0..n-1`. -/
def denominatorIdx (n : ℕ) : ℚ := (n : ℚ) * sum_x2 n - sum_x n * sum_x n

/-- The closed-form slope `(n·sum_xy − sum_x·sum_y) / denominator` for `data`
over the dense index. -/
def slopeFormula (data : List ℚ) : ℚ :=
  ((data.length : ℚ) * sum_xy data - sum_x data.length * data.sum)
    / denominatorIdx data.length

/-- The closed-form intercept `(sum_y − slope·sum_x) / n` for `data` over the
dense index. -/
def interceptFormula (data : List ℚ) : ℚ :=
  (data.sum - slopeFormula data * sum_x data.length) / (data.length : ℚ)

/-- Spec-side mean of `actual`: `average(actual)`. -/
def specMean (actual : List ℚ) : ℚ := actual.sum / (actual.length : ℚ)

/-- Spec-side `total_sum_squares`: `Σ(actual_i − mean)²` over every index of
`actual`. -/
def specTotalSumSquares (actual : List ℚ) : ℚ :=
  ∑ i ∈ Finset.range actual.length, (actual.getD i 0 - specMean actual) ^ 2

/-- Spec-side `residual_sum_squares` for equal-length sequences:
`Σ(actual_i − predicted_i)²` over every index of `actual`. -/
def specResidualSumSquares (actual predicted : List ℚ) : ℚ :=
  ∑ i ∈ Finset.range actual.length, (actual.getD i 0 - predicted.getD i 0) ^ 2

/-- The series lying exactly on the line `y = a·i + b` over the dense index,
with `n` points. -/
def linOn (n : ℕ) (a b : ℚ) : List ℚ :=
  (List.range n).map (fun i : ℕ => a * (i : ℚ) + b)

theorem length_timeIndex (n : ℕ) : (timeIndex n).length = n := by
  simp [timeIndex]

theorem length_linOn (n : ℕ) (a b : ℚ) : (linOn n a b).length = n := by
  simp [linOn]

theorem sum_map_range (n : ℕ) (f : ℕ → ℚ) :
    ((List.range n).map f).sum = ∑ i ∈ Finset.range n, f i := by
  induction n with
  | zero => simp
  | succ k ih =>
      rw [List.range_succ, List.map_append, List.sum_append, Finset.sum_range_succ, ih]
      simp

theorem zipWith_sum_range (n : ℕ) (h : ℚ → ℚ → ℚ) (f g : ℕ → ℚ) :
    (List.zipWith h ((List.range n).map f) ((List.range n).map g)).sum
      = ∑ i ∈ Finset.range n, h (f i) (g i) := by
  induction n with
  | zero => simp
  | succ k ih =>
      rw [List.range_succ, List.map_append, List.map_append,
        List.zipWith_append _ _ _ _ _ (by simp), List.sum_append, ih,
        Finset.sum_range_succ]
      simp

theorem zipWith_sq_sum (a p : List ℚ) :
    (List.zipWith (fun yi y_pred => (yi - y_pred) ^ 2) a p).sum
      = ∑ i ∈ Finset.range (min a.length p.length), (a.getD i 0 - p.getD i 0) ^ 2 := by
  induction a generalizing p with
  | nil => simp
  | cons x xs ih =>
      cases p with
      | nil => simp
      | cons y ys =>
          rw [List.zipWith_cons_cons, List.sum_cons, ih ys]
          have hmin : min (x :: xs).length (y :: ys).length
              = min xs.length ys.length + 1 := by
            simp [Nat.succ_min_succ]
          rw [hmin, Finset.sum_range_succ']
          simp [add_comm]

theorem map_sub_sq_sum (a : List ℚ) (m : ℚ) :
    (a.map (fun yi => (yi - m) ^ 2)).sum
      = ∑ i ∈ Finset.range a.length, (a.getD i 0 - m) ^ 2 := by
  induction a with
  | nil => simp
  | cons x xs ih =>
      rw [List.map_cons, List.sum_cons, ih, List.length_cons, Finset.sum_range_succ']
      simp [add_comm]

theorem sum_x_eq (n : ℕ) : sum_x n = (n : ℚ) * ((n : ℚ) - 1) / 2 := by
  induction n with
  | zero => simp [sum_x, timeIndex]
  | succ k ih =>
      rw [sum_x, timeIndex, List.range_succ, List.map_append, List.sum_append]
      rw [sum_x, timeIndex] at ih
      rw [ih]
      simp only [List.map_cons, List.map_nil, List.sum_cons, List.sum_nil]
      push_cast
      ring

theorem sum_x2_eq (n : ℕ) :
    sum_x2 n = (n : ℚ) * ((n : ℚ) - 1) * (2 * (n : ℚ) - 1) / 6 := by
  induction n with
  | zero => simp [sum_x2, timeIndex]
  | succ k ih =>
      rw [sum_x2, timeIndex, List.range_succ, List.map_append, List.map_append,
        List.sum_append]
      rw [sum_x2, timeIndex] at ih
      rw [ih]
      simp only [List.map_cons, List.map_nil, List.sum_cons, List.sum_nil]
      push_cast
      ring

theorem denominatorIdx_eq (n : ℕ) :
    denominatorIdx n = (n : ℚ) ^ 2 * ((n : ℚ) ^ 2 - 1) / 12 := by
  rw [denominatorIdx, sum_x_eq, sum_x2_eq]
  ring

theorem denominatorIdx_ge_one (n : ℕ) (h : 2 ≤ n) : 1 ≤ denominatorIdx n := by
  rw [denominatorIdx_eq]
  have hn : (2 : ℚ) ≤ (n : ℚ) := by exact_mod_cast h
  have h4 : (4 : ℚ) ≤ (n : ℚ) ^ 2 := by nlinarith
  nlinarith

theorem f64EPSILON_le_one : f64EPSILON ≤ 1 := by
  norm_num [f64EPSILON]

theorem denominatorIdx_not_lt_eps (n : ℕ) (h : 2 ≤ n) :
    ¬ |denominatorIdx n| < f64EPSILON := by
  intro hc
  have h1 := denominatorIdx_ge_one n h
  rw [abs_of_pos (by linarith)] at hc
  have := f64EPSILON_le_one
  linarith

theorem calculate_coefficients_timeIndex (data : List ℚ) (h : 2 ≤ data.length) :
    calculate_coefficients (timeIndex data.length) data
      = .ok ⟨slopeFormula data, interceptFormula data⟩ := by
  have hne : ¬ |denominatorIdx data.length| < f64EPSILON :=
    denominatorIdx_not_lt_eps data.length h
  simp only [calculate_coefficients, length_timeIndex]
  rw [if_neg (by exact hne)]
  rfl

theorem fit_eq_ok (data : List ℚ) (h : 2 ≤ data.length) :
    fit data = .ok
      { coefficients := ⟨slopeFormula data, interceptFormula data⟩,
        r_squared := calculate_r_squared data
          (predict_range (timeIndex data.length)
            ⟨slopeFormula data, interceptFormula data⟩),
        mse := calculate_mse data
          (predict_range (timeIndex data.length)
            ⟨slopeFormula data, interceptFormula data⟩),
        predictions := predict_range (timeIndex data.length)
          ⟨slopeFormula data, interceptFormula data⟩ } := by
  have h0 : data.isEmpty = false := by
    cases data with
    | nil => simp at h
    | cons a l => rfl
  have h2 : ¬ data.length < 2 := by omega
  rw [fit]
  simp only [h0, Bool.false_eq_true, if_false, if_neg h2,
    calculate_coefficients_timeIndex data h]

/-- C1: for every series of length `n ≥ 2`, `fit` returns the closed-form
least-squares coefficients over the dense index: the slope is
`(n·sum_xy − sum_x·sum_y) / denominator` with `denominator = n·sum_x2 − sum_x²`,
and the intercept is `(sum_y − slope·sum_x) / n`. -/
theorem fit_closed_form_coefficients (data : List ℚ) (h : 2 ≤ data.length) :
    (fit data).map (fun r => r.coefficients)
      = .ok ⟨slopeFormula data, interceptFormula data⟩ := by
  rw [fit_eq_ok data h]
  rfl

theorem fit_closed_form_coefficients_witness :
    (fit [1, 3, 5, 7, 9]).map (fun r => r.coefficients)
      = .ok ⟨slopeFormula [1, 3, 5, 7, 9], interceptFormula [1, 3, 5, 7, 9]⟩ :=
  fit_closed_form_coefficients [1, 3, 5, 7, 9] (by norm_num)

/-- C2: for every series of length `n ≥ 2`, the least-squares denominator over
the dense index is strictly positive and not below machine epsilon in absolute
value, so `fit` never returns `InvalidInput`. -/
theorem fit_invalid_input_unreachable (data : List ℚ) (h : 2 ≤ data.length) :
    0 < denominatorIdx data.length
  ∧ ¬ |denominatorIdx data.length| < f64EPSILON
  ∧ fit data ≠ .error .InvalidInput := by
  refine ⟨by have := denominatorIdx_ge_one data.length h; linarith,
    denominatorIdx_not_lt_eps data.length h, ?_⟩
  rw [fit_eq_ok data h]
  simp

theorem fit_invalid_input_unreachable_witness :
    0 < denominatorIdx ([0, 1] : List ℚ).length
  ∧ ¬ |denominatorIdx ([0, 1] : List ℚ).length| < f64EPSILON
  ∧ fit ([0, 1] : List ℚ) ≠ .error .InvalidInput :=
  fit_invalid_input_unreachable [0, 1] (by norm_num)

/-- C3: `fit` fails with `EmptyData` exactly on the empty series, fails with
`InsufficientData` exactly on one-element series, and for length `≥ 2` neither
of these failures occurs. -/
theorem fit_error_characterization (data : List ℚ) :
    (fit data = .error .EmptyData ↔ data.length = 0)
  ∧ (fit data = .error .InsufficientData ↔ data.length = 1)
  ∧ (2 ≤ data.length →
      fit data ≠ .error .EmptyData ∧ fit data ≠ .error .InsufficientData) := by
  match data with
  | [] => exact ⟨by simp [fit], by simp [fit], by intro hc; simp at hc⟩
  | [a] => exact ⟨by simp [fit], by simp [fit], by intro hc; simp at hc⟩
  | a :: b :: rest =>
      have h2 : 2 ≤ (a :: b :: rest).length := by
        rw [List.length_cons, List.length_cons]
        omega
      rw [fit_eq_ok _ h2]
      exact ⟨by simp, by simp, fun _ => ⟨by simp, by simp⟩⟩

theorem fit_error_characterization_witness :
    fit ([5, 6] : List ℚ) ≠ .error .EmptyData
  ∧ fit ([5, 6] : List ℚ) ≠ .error .InsufficientData :=
  (fit_error_characterization [5, 6]).2.2 (by norm_num)

theorem f64EPSILON_pos : 0 < f64EPSILON := by
  norm_num [f64EPSILON]

theorem zipWith_mul_replicate (l : List ℚ) (c : ℚ) :
    (List.zipWith (fun xi yi => xi * yi) l (List.replicate l.length c)).sum
      = l.sum * c := by
  induction l with
  | nil => simp
  | cons x xs ih =>
      simp only [List.length_cons, List.replicate_succ, List.zipWith_cons_cons,
        List.sum_cons, ih]
      ring

theorem sum_replicate_rat (n : ℕ) (c : ℚ) :
    (List.replicate n c).sum = (n : ℚ) * c := by
  simp [List.sum_replicate, nsmul_eq_mul]

theorem slopeFormula_replicate (n : ℕ) (c : ℚ) :
    slopeFormula (List.replicate n c) = 0 := by
  have hl : (List.replicate n c).length = n := List.length_replicate n c
  have hxy : sum_xy (List.replicate n c) = sum_x n * c := by
    rw [sum_xy, hl]
    have h1 := zipWith_mul_replicate (timeIndex n) c
    rw [length_timeIndex] at h1
    rw [h1, sum_x]
  rw [slopeFormula, hl, hxy, sum_replicate_rat]
  rw [show (n : ℚ) * (sum_x n * c) - sum_x n * ((n : ℚ) * c) = 0 by ring]
  exact zero_div _

theorem interceptFormula_replicate (n : ℕ) (c : ℚ) (h : 1 ≤ n) :
    interceptFormula (List.replicate n c) = c := by
  have hl : (List.replicate n c).length = n := List.length_replicate n c
  have hn : (n : ℚ) ≠ 0 := Nat.cast_ne_zero.mpr (by omega)
  rw [interceptFormula, hl, slopeFormula_replicate, sum_replicate_rat,
    zero_mul, sub_zero]
  exact mul_div_cancel_left₀ c hn

theorem r_squared_replicate (n : ℕ) (c : ℚ) (h : 1 ≤ n) (p : List ℚ) :
    calculate_r_squared (List.replicate n c) p = 1 := by
  have hn : (n : ℚ) ≠ 0 := Nat.cast_ne_zero.mpr (by omega)
  have hdiv : (n : ℚ) * c / (n : ℚ) = c := mul_div_cancel_left₀ c hn
  simp [calculate_r_squared, sum_replicate_rat, List.length_replicate, hdiv,
    List.map_replicate, sub_self, f64EPSILON_pos]

/-- C4: for every constant series of length `≥ 2` (all elements equal to `c`),
`fit` succeeds with slope `0`, intercept `c` (the mean of the series), and
`r_squared = 1` (a defined value). -/
theorem fit_constant_series (n : ℕ) (c : ℚ) (h : 2 ≤ n) :
    (fit (List.replicate n c)).map
      (fun r => (r.coefficients.slope, r.coefficients.intercept, r.r_squared))
      = .ok (0, c, 1) := by
  have hl : (List.replicate n c).length = n := List.length_replicate n c
  rw [fit_eq_ok (List.replicate n c) (by rw [hl]; exact h)]
  simp only [Except.map]
  rw [slopeFormula_replicate, interceptFormula_replicate n c (by omega),
    r_squared_replicate n c (by omega)]

theorem fit_constant_series_witness :
    (fit (List.replicate 5 (5 : ℚ))).map
      (fun r => (r.coefficients.slope, r.coefficients.intercept, r.r_squared))
      = .ok (0, 5, 1) :=
  fit_constant_series 5 5 (by norm_num)

/-- C5: for equal-length `actual`/`predicted`, `calculate_r_squared` returns
exactly `1` when `|total_sum_squares| < ε` and `1 − rss/tss` otherwise, with
the sums exactly as the spec states; the result is not clamped and can be
negative. -/
theorem r_squared_matches_spec :
    (∀ actual predicted : List ℚ, actual.length = predicted.length →
      calculate_r_squared actual predicted
        = if |specTotalSumSquares actual| < f64EPSILON then 1
          else 1 - specResidualSumSquares actual predicted / specTotalSumSquares actual)
  ∧ calculate_r_squared [0, 2] [2, 0] < 0 := by
  constructor
  · intro actual predicted hlen
    have htss :
        (actual.map (fun yi => (yi - actual.sum / (actual.length : ℚ)) ^ 2)).sum
          = specTotalSumSquares actual := by
      rw [map_sub_sq_sum, specTotalSumSquares, specMean]
    have hrss :
        (List.zipWith (fun yi y_pred => (yi - y_pred) ^ 2) actual predicted).sum
          = specResidualSumSquares actual predicted := by
      rw [zipWith_sq_sum, specResidualSumSquares, hlen, min_self]
    simp only [calculate_r_squared, htss, hrss]
  · norm_num [calculate_r_squared, f64EPSILON]

theorem r_squared_matches_spec_witness :
    calculate_r_squared [1, 2] [1, 2]
      = if |specTotalSumSquares [1, 2]| < f64EPSILON then 1
        else 1 - specResidualSumSquares [1, 2] [1, 2] / specTotalSumSquares [1, 2] :=
  r_squared_matches_spec.1 [1, 2] [1, 2] rfl

theorem zipWith_sq_self_sum (a : List ℚ) :
    (List.zipWith (fun yi y_pred => (yi - y_pred) ^ 2) a a).sum = 0 := by
  induction a with
  | nil => rfl
  | cons x xs ih => simp [ih]

/-- C6: for equal-length non-empty sequences, `calculate_mse` is the arithmetic
mean of the squared differences; `mse(a, a) = 0` and
`mse([1,2,3],[2,3,4]) = 1`. -/
theorem mse_matches_spec :
    (∀ actual predicted : List ℚ, actual.length = predicted.length →
      actual ≠ [] →
      calculate_mse actual predicted
        = (∑ i ∈ Finset.range actual.length,
            (actual.getD i 0 - predicted.getD i 0) ^ 2) / (actual.length : ℚ))
  ∧ (∀ a : List ℚ, a ≠ [] → calculate_mse a a = 0)
  ∧ calculate_mse [1, 2, 3] [2, 3, 4] = 1 := by
  refine ⟨?_, ?_, ?_⟩
  · intro actual predicted hlen _
    rw [calculate_mse, zipWith_sq_sum, hlen, min_self]
  · intro a _
    rw [calculate_mse, zipWith_sq_self_sum, zero_div]
  · norm_num [calculate_mse]

theorem mse_matches_spec_witness :
    calculate_mse ([1, 2] : List ℚ) [1, 2] = 0 :=
  mse_matches_spec.2.1 [1, 2] (by simp)

/-- C10: with sequences of unequal length, `calculate_mse` and
`calculate_r_squared` silently pair only the first
`min(len(actual), len(predicted))` elements, while `mse` still divides by
`len(actual)` and `r_squared` still takes its mean and `total_sum_squares`
over all of `actual`; neither fails. -/
theorem metrics_truncated_pairing :
    (∀ actual predicted : List ℚ,
      calculate_mse actual predicted
        = (∑ i ∈ Finset.range (min actual.length predicted.length),
            (actual.getD i 0 - predicted.getD i 0) ^ 2) / (actual.length : ℚ))
  ∧ (∀ actual predicted : List ℚ,
      calculate_r_squared actual predicted
        = if |specTotalSumSquares actual| < f64EPSILON then 1
          else 1 - (∑ i ∈ Finset.range (min actual.length predicted.length),
              (actual.getD i 0 - predicted.getD i 0) ^ 2) / specTotalSumSquares actual)
  ∧ calculate_mse [1, 2, 3] [2] = 1 / 3
  ∧ calculate_r_squared [1, 2, 3] [3] = -1 := by
  refine ⟨?_, ?_, ?_, ?_⟩
  · intro actual predicted
    rw [calculate_mse, zipWith_sq_sum]
  · intro actual predicted
    have htss :
        (actual.map (fun yi => (yi - actual.sum / (actual.length : ℚ)) ^ 2)).sum
          = specTotalSumSquares actual := by
      rw [map_sub_sq_sum, specTotalSumSquares, specMean]
    simp only [calculate_r_squared, htss, zipWith_sq_sum]
  · norm_num [calculate_mse]
  · norm_num [calculate_r_squared, f64EPSILON]

/-- C7: whenever `fit` succeeds, the `predictions` field has the same length
as the input series, and its `i`-th entry is the fitted value
`slope·i + intercept`. -/
theorem fit_predictions_spec (data : List ℚ) (r : RegressionResult)
    (h : fit data = .ok r) :
    r.predictions.length = data.length
  ∧ r.predictions = (List.range data.length).map
      (fun i : ℕ => r.coefficients.slope * (i : ℚ) + r.coefficients.intercept) := by
  match data with
  | [] => simp [fit] at h
  | [a] => simp [fit] at h
  | a :: b :: rest =>
      have h2 : 2 ≤ (a :: b :: rest).length := by
        rw [List.length_cons, List.length_cons]
        omega
      rw [fit_eq_ok _ h2] at h
      injection h with h
      subst h
      constructor
      · simp [predict_range, timeIndex]
      · rw [predict_range, timeIndex, List.map_map]
        rfl

theorem fit_predictions_spec_witness :
    (RegressionResult.mk ⟨2, 1⟩ 1 0 [1, 3]).predictions.length
        = ([1, 3] : List ℚ).length
  ∧ (RegressionResult.mk ⟨2, 1⟩ 1 0 [1, 3]).predictions
      = (List.range ([1, 3] : List ℚ).length).map
          (fun i : ℕ =>
            (RegressionResult.mk ⟨2, 1⟩ 1 0 [1, 3]).coefficients.slope * (i : ℚ)
              + (RegressionResult.mk ⟨2, 1⟩ 1 0 [1, 3]).coefficients.intercept) :=
  fit_predictions_spec [1, 3] ⟨⟨2, 1⟩, 1, 0, [1, 3]⟩
    (by norm_num [fit, calculate_coefficients, calculate_r_squared, calculate_mse,
      predict_range, timeIndex, f64EPSILON, List.range_succ])

/-- C8: `forecast` returns exactly `periods` values with
`forecast[i] = slope·i + intercept`; zero periods yields the empty sequence,
and `forecast({slope:1, intercept:10}, 3) = [10, 11, 12]`. -/
theorem forecast_spec :
    (∀ (c : LinearCoefficients) (periods : ℕ),
      (forecast c periods).length = periods
      ∧ ∀ i : ℕ, i < periods →
          (forecast c periods).getD i 0 = c.slope * (i : ℚ) + c.intercept)
  ∧ (∀ c : LinearCoefficients, forecast c 0 = [])
  ∧ forecast ⟨1, 10⟩ 3 = [10, 11, 12] := by
  refine ⟨fun c periods => ⟨by simp [forecast], ?_⟩, fun c => rfl, ?_⟩
  · intro i hi
    have hlen : i < ((List.range periods).map
        (fun i : ℕ => c.slope * (i : ℚ) + c.intercept)).length := by
      simp [hi]
    rw [forecast, List.getD_eq_getElem _ _ hlen]
    simp
  · norm_num [forecast, List.range_succ]

theorem forecast_spec_witness :
    (forecast ⟨2, 3⟩ 2).length = 2
  ∧ (forecast ⟨2, 3⟩ 2).getD 1 0 = 2 * ((1 : ℕ) : ℚ) + 3 :=
  ⟨(forecast_spec.1 ⟨2, 3⟩ 2).1, (forecast_spec.1 ⟨2, 3⟩ 2).2 1 (by norm_num)⟩

theorem sum_x_finset (n : ℕ) : sum_x n = ∑ i ∈ Finset.range n, (i : ℚ) := by
  rw [sum_x, timeIndex, sum_map_range]

theorem sum_x2_finset (n : ℕ) :
    sum_x2 n = ∑ i ∈ Finset.range n, (i : ℚ) * (i : ℚ) := by
  rw [sum_x2, timeIndex, List.map_map, sum_map_range]
  rfl

theorem linOn_sum (n : ℕ) (a b : ℚ) :
    (linOn n a b).sum = a * sum_x n + (n : ℚ) * b := by
  rw [linOn, sum_map_range, sum_x_finset, Finset.sum_add_distrib,
    ← Finset.mul_sum, Finset.sum_const, Finset.card_range, nsmul_eq_mul]

theorem linOn_sum_xy (n : ℕ) (a b : ℚ) :
    sum_xy (linOn n a b) = a * sum_x2 n + b * sum_x n := by
  rw [sum_xy, length_linOn, timeIndex, linOn, zipWith_sum_range,
    sum_x_finset, sum_x2_finset, Finset.mul_sum, Finset.mul_sum, ← Finset.sum_add_distrib]
  refine Finset.sum_congr rfl fun i _ => by ring

theorem slopeFormula_linOn (n : ℕ) (a b : ℚ) (h : 2 ≤ n) :
    slopeFormula (linOn n a b) = a := by
  have hden1 := denominatorIdx_ge_one n h
  have hden : denominatorIdx n ≠ 0 := by linarith
  rw [slopeFormula, length_linOn, linOn_sum_xy, linOn_sum]
  rw [show (n : ℚ) * (a * sum_x2 n + b * sum_x n)
      - sum_x n * (a * sum_x n + (n : ℚ) * b)
      = a * denominatorIdx n by rw [denominatorIdx]; ring]
  exact mul_div_cancel_right₀ a hden

theorem interceptFormula_linOn (n : ℕ) (a b : ℚ) (h : 2 ≤ n) :
    interceptFormula (linOn n a b) = b := by
  have hn : (n : ℚ) ≠ 0 := Nat.cast_ne_zero.mpr (by omega)
  rw [interceptFormula, length_linOn, slopeFormula_linOn n a b h, linOn_sum]
  rw [show a * sum_x n + (n : ℚ) * b - a * sum_x n = (n : ℚ) * b by ring]
  exact mul_div_cancel_left₀ b hn

theorem predict_range_linOn (n : ℕ) (a b : ℚ) :
    predict_range (timeIndex n) ⟨a, b⟩ = linOn n a b := by
  rw [predict_range, timeIndex, List.map_map, linOn]
  rfl

theorem r_squared_self (l : List ℚ) : calculate_r_squared l l = 1 := by
  simp only [calculate_r_squared, zipWith_sq_self_sum]
  split
  · rfl
  · rw [zero_div, sub_zero]

theorem mse_self (l : List ℚ) : calculate_mse l l = 0 := by
  rw [calculate_mse, zipWith_sq_self_sum, zero_div]

/-- C9: for every series of length `≥ 2` lying exactly on the line
`y = a·i + b` over the dense index, `fit` succeeds and recovers the slope `a`
and intercept `b` exactly (hence within the 1e-10 tolerance), with
`r_squared = 1` and `mse = 0`. -/
theorem fit_linear_series (n : ℕ) (a b : ℚ) (h : 2 ≤ n) :
    (fit (linOn n a b)).map
      (fun r => (r.coefficients.slope, r.coefficients.intercept, r.r_squared, r.mse))
      = .ok (a, b, 1, 0) := by
  rw [fit_eq_ok (linOn n a b) (by rw [length_linOn]; exact h)]
  simp only [Except.map]
  rw [slopeFormula_linOn n a b h, interceptFormula_linOn n a b h, length_linOn,
    predict_range_linOn, r_squared_self, mse_self]

theorem fit_linear_series_witness :
    (fit [1, 3, 5, 7, 9]).map
      (fun r => (r.coefficients.slope, r.coefficients.intercept, r.r_squared, r.mse))
      = .ok (2, 1, 1, 0) := by
  have he : linOn 5 2 1 = [1, 3, 5, 7, 9] := by
    norm_num [linOn, List.range_succ]
  have h9 := fit_linear_series 5 2 1 (by norm_num)
  rw [he] at h9
  exact h9

end Timewise
